import Mathlib

/-!
Verification of the seldom-platform scheduling and task-execution core.

The Go sources embedded here:
- `backendnew/utils/validator.go`   : IsValidCronExpression
- `backendnew/services/task_service.go` (src/unnamed/part_001) :
  ExecuteTask, executeSingleCase, runTestCase, saveCaseResult,
  saveTaskReport, updateTaskStatus, calculateSummary, GetTaskStatus, StopTask
- `backendnew/services/scheduler_service.go` : executeScheduledTask,
  GetTaskStatistics (average-duration part)
- `backendnew/models/user.go`, `backendnew/models/case.go` : row types

Modelling conventions:
- float64 and time.Duration values are embedded as exact rationals (ℚ);
  none of the verified properties depend on floating-point rounding.
- The persistence layer (GORM over SQL) is embedded as a pure `Store` of
  row lists; `db.Save` on a primary key replaces the row(s) with that id,
  `db.Create` appends, `db.First`/`db.Where(...).First` are `List.find?`,
  and `db.Where(...).Find` is `List.filter`.
- Reads of the wall clock (`time.Now()`) are environment inputs: the batch
  start/end instants and a per-binding instant stream live in `Env`.
- Go standard-library capabilities that the core only consumes
  (`json.Unmarshal` success, `time.ParseDuration`) are parameters
  (`Env.jsonParses`, `parse` arguments); the executor outcome of
  `runTestCase` is a parameter as well, with the source's always-succeeding
  stub given as the concrete instance `runTestCase`.
-/

/-- Row type `models.TestTask` (backendnew/models/user.go), restricted to the
fields the scheduling core reads or writes.  `status` follows the source
encoding: 0 not-run, 1 running, 2 executed. -/
structure TestTask where
  id : Nat
  name : String
  status : Int
  isScheduled : Bool
  cronExpression : String
  isDelete : Bool
  updateTime : ℚ
  deriving Repr, DecidableEq

/-- Row type `models.TestCase` (backendnew/models/case.go), restricted to the
fields read by the task runner. -/
structure TestCase where
  id : Nat
  caseName : String
  caseDoc : String
  caseHash : String
  deriving Repr, DecidableEq

/-- Row type `models.TaskCaseRelevance` (backendnew/models/user.go): binds a
task to a case by content hash. -/
structure TaskCaseRelevance where
  taskId : Nat
  caseHash : String
  deriving Repr, DecidableEq

/-- Row type `models.CaseResult` (backendnew/models/case.go), restricted to
the fields written by `saveCaseResult`. -/
structure CaseResult where
  caseId : Nat
  name : String
  report : String
  runTime : ℚ
  deriving Repr, DecidableEq

/-- Row type `models.TaskReport` (backendnew/models/user.go).  `createTime`
is the insertion instant set by the GORM BeforeCreate hook. -/
structure TaskReport where
  taskId : Nat
  name : String
  report : String
  passed : Int
  error : Int
  failure : Int
  skipped : Int
  tests : Int
  runTime : String
  createTime : ℚ
  deriving Repr, DecidableEq

/-- The persistence store: the five tables touched by the scheduling core. -/
structure Store where
  tasks : List TestTask
  cases : List TestCase
  relevances : List TaskCaseRelevance
  caseResults : List CaseResult
  taskReports : List TaskReport
  deriving Repr, DecidableEq

/-- Embeds `db.First(&task, taskID)`: primary-key lookup on the task table. -/
def findTask (st : Store) (taskID : Nat) : Option TestTask :=
  st.tasks.find? (fun t => t.id == taskID)

/-- Embeds `db.Where("case_hash = ?", h).First(&testCase)`. -/
def findCaseByHash (st : Store) (h : String) : Option TestCase :=
  st.cases.find? (fun c => c.caseHash == h)

/-- Embeds `db.First(&testCase, caseID)`: primary-key lookup on the case table. -/
def findCaseByID (st : Store) (caseID : Nat) : Option TestCase :=
  st.cases.find? (fun c => c.id == caseID)

/-- Embeds `db.Save(&task)`: replace the row with the same primary key. -/
def saveTask (st : Store) (t : TestTask) : Store :=
  { st with tasks := st.tasks.map (fun r => if r.id == t.id then t else r) }

/-- Embeds `db.Create(&caseResult)`. -/
def insertCaseResult (st : Store) (r : CaseResult) : Store :=
  { st with caseResults := st.caseResults ++ [r] }

/-- Embeds `db.Create(&report)`. -/
def insertTaskReport (st : Store) (r : TaskReport) : Store :=
  { st with taskReports := st.taskReports ++ [r] }

/-- Embeds `unicode.IsSpace`, the predicate Go's `strings.Fields` splits
on: the full Unicode White_Space set — U+0009–U+000D (tab, newline,
vertical tab, form feed, carriage return), U+0020 space, U+0085 NEL,
U+00A0 no-break space, U+1680 ogham space mark, U+2000–U+200A the en-quad
through hair-space range, U+2028 line separator, U+2029 paragraph
separator, U+202F narrow no-break space, U+205F medium mathematical space,
and U+3000 ideographic space. -/
def goIsSpace (c : Char) : Bool :=
  (9 ≤ c.toNat && c.toNat ≤ 13) || c.toNat = 32 || c.toNat = 133 ||
  c.toNat = 160 || c.toNat = 5760 ||
  (8192 ≤ c.toNat && c.toNat ≤ 8202) || c.toNat = 8232 || c.toNat = 8233 ||
  c.toNat = 8239 || c.toNat = 8287 || c.toNat = 12288

/-- Worker for `goFields`: splits a character list around runs of white
space, accumulating the current field in reverse. -/
def fieldsAux : List Char → List Char → List String
  | [], [] => []
  | [], acc => [String.mk acc.reverse]
  | c :: cs, acc =>
    if goIsSpace c then
      match acc with
      | [] => fieldsAux cs []
      | _ :: _ => String.mk acc.reverse :: fieldsAux cs []
    else fieldsAux cs (c :: acc)

/-- Embeds `strings.Fields`: split around runs of white space; no empty fields. -/
def goFields (s : String) : List String :=
  fieldsAux s.data []

/-- Embeds `utils.IsValidCronExpression` (backendnew/utils/validator.go, lines
64–72): an empty expression is allowed; otherwise the expression must split
into exactly 6 or exactly 5 white-space separated fields. -/
def IsValidCronExpression (cron : String) : Bool :=
  if cron = "" then
    true
  else
    let parts := goFields cron
    parts.length == 6 || parts.length == 5

/-- In-memory record `services.CaseExecutionResult` (task_service.go),
restricted to the fields the runner writes (screenshots/logs are never
populated by the core). -/
structure CaseExecutionResult where
  caseId : Nat
  caseName : String
  status : String
  startTime : ℚ
  endTime : ℚ
  duration : ℚ
  errorMsg : String
  deriving Repr, DecidableEq

/-- In-memory record `services.TaskExecutionSummary` (task_service.go). -/
structure TaskExecutionSummary where
  totalCases : Nat
  passedCases : Nat
  failedCases : Nat
  skippedCases : Nat
  passRate : ℚ
  deriving Repr, DecidableEq

/-- In-memory record `services.TaskExecutionResult` (task_service.go). -/
structure TaskExecutionResult where
  taskId : Nat
  status : String
  startTime : ℚ
  endTime : ℚ
  duration : ℚ
  results : List CaseExecutionResult
  summary : TaskExecutionSummary
  errorMsg : String
  deriving Repr, DecidableEq

/-- Environment of a batch: the wall-clock instants read via `time.Now()`
and the standard-library / executor capabilities the runner consumes.
`jsonParses d` is whether `json.Unmarshal([]byte(d), &caseData)` succeeds;
`runCaseError d` is the outcome of the executor on the case with doc `d`
(`none` = success, `some msg` = failure with message). -/
structure Env where
  jsonParses : String → Bool
  runCaseError : String → Option String
  startTime : ℚ
  endTime : ℚ
  caseStart : Nat → ℚ
  caseEnd : Nat → ℚ

/-- Embeds `runTestCase` (task_service.go, lines 199–210): the source stub always
succeeds (returns nil) after a simulated delay. -/
def runTestCase (_caseData : String) : Option String :=
  none

/-- Embeds `calculateSummary` (task_service.go, lines 298–320): count results per
status (the loop increments exactly the counter whose status matches) and
set the pass rate to passed/total*100 when total is positive. -/
def calculateSummary (results : List CaseExecutionResult) : TaskExecutionSummary :=
  let total := results.length
  let passed := results.countP (fun r => r.status == "passed")
  let failed := results.countP (fun r => r.status == "failed")
  let skipped := results.countP (fun r => r.status == "skipped")
  { totalCases := total
    passedCases := passed
    failedCases := failed
    skippedCases := skipped
    passRate := if total > 0 then (passed : ℚ) / (total : ℚ) * 100 else 0 }

/-- Embeds `executeSingleCase` (task_service.go, lines 153–197): fetch the case by
id (failure → failed result with a fetch error), parse its doc (failure →
failed result with a parse error), then run it through the executor and map
the outcome to passed/failed.  `idx` selects this binding's wall-clock
instants from the environment. -/
def executeSingleCase (env : Env) (st : Store) (idx : Nat) (caseID : Nat) :
    CaseExecutionResult :=
  let t0 := env.caseStart idx
  let t1 := env.caseEnd idx
  match findCaseByID st caseID with
  | none =>
      { caseId := caseID, caseName := "", status := "failed",
        startTime := t0, endTime := t1, duration := t1 - t0,
        errorMsg := "获取用例失败: record not found" }
  | some tc =>
      if env.jsonParses tc.caseDoc then
        match env.runCaseError tc.caseDoc with
        | some e =>
            { caseId := caseID, caseName := tc.caseName, status := "failed",
              startTime := t0, endTime := t1, duration := t1 - t0,
              errorMsg := e }
        | none =>
            { caseId := caseID, caseName := tc.caseName, status := "passed",
              startTime := t0, endTime := t1, duration := t1 - t0,
              errorMsg := "" }
      else
        { caseId := caseID, caseName := tc.caseName, status := "failed",
          startTime := t0, endTime := t1, duration := t1 - t0,
          errorMsg := "解析用例数据失败: invalid character" }

/-- Abstraction of Go's duration formatting used in persisted text fields
(`%v` on a `time.Duration` and `%.2fs` on seconds): the numeric value
followed by the second suffix.  No verified property depends on the digits. -/
def formatSeconds (d : ℚ) : String :=
  toString d ++ "s"

/-- The `models.CaseResult` row built by `saveCaseResult` (task_service.go,
lines 233–250): name and status/duration report text; the result's error
message is NOT copied into the row. -/
def mkCaseResult (r : CaseExecutionResult) : CaseResult :=
  { caseId := r.caseId
    name := r.caseName
    report := "Status: " ++ r.status ++ ", Duration: " ++ formatSeconds r.duration
    runTime := r.duration }

/-- Embeds `saveCaseResult` (task_service.go, lines 233–250): insert one per-case
row (a create failure is only logged; the pure store cannot fail). -/
def saveCaseResult (st : Store) (_taskID : Nat) (r : CaseExecutionResult) : Store :=
  insertCaseResult st (mkCaseResult r)

/-- The `models.TaskReport` row built by `saveTaskReport` (task_service.go,
lines 252–273). Both the Error and the Failure column receive the summary's
failed-case count.  `createTime` is the insertion instant (BeforeCreate
hook); the insert happens right after the batch end instant is taken. -/
def mkTaskReport (taskID : Nat) (result : TaskExecutionResult) : TaskReport :=
  { taskId := taskID
    name := "Task " ++ toString taskID ++ " Execution Report"
    report := "Task executed with status: " ++ result.status
    passed := (result.summary.passedCases : Int)
    error := (result.summary.failedCases : Int)
    failure := (result.summary.failedCases : Int)
    skipped := (result.summary.skippedCases : Int)
    tests := (result.summary.totalCases : Int)
    runTime := formatSeconds result.duration
    createTime := result.endTime }

/-- Embeds `saveTaskReport` (task_service.go, lines 252–273). -/
def saveTaskReport (st : Store) (taskID : Nat) (result : TaskExecutionResult) : Store :=
  insertTaskReport st (mkTaskReport taskID result)

/-- The status encoding of `updateTaskStatus` (task_service.go, lines
275–296): running → 1, success → 2, failed → 2 (a failure also counts as
executed), anything else → 0 (not executed). -/
def statusToInt (status : String) : Int :=
  if status == "running" then 1
  else if status == "success" then 2
  else if status == "failed" then 2
  else 0

/-- Embeds `updateTaskStatus` (task_service.go, lines 275–296): store the encoded
status on the in-memory task row and save it. -/
def updateTaskStatus (st : Store) (task : TestTask) (status : String)
    (_errorMsg : String) : Store :=
  saveTask st { task with status := statusToInt status }

/-- The per-binding loop of `ExecuteTask` (task_service.go, lines 97–120):
resolve each binding by hash; an unresolved binding is synthesized as a
failed result (case id 0, name = the hash, zero duration, not-found error)
and the loop continues WITHOUT persisting it; a resolved binding is executed
and its result persisted via `saveCaseResult`. -/
def runBindings (env : Env) (taskID : Nat) :
    Store → List TaskCaseRelevance → Nat → List CaseExecutionResult × Store
  | st, [], _ => ([], st)
  | st, rel :: rest, idx =>
    match findCaseByHash st rel.caseHash with
    | none =>
        let cr : CaseExecutionResult :=
          { caseId := 0, caseName := rel.caseHash, status := "failed",
            startTime := env.caseStart idx, endTime := env.caseEnd idx,
            duration := 0,
            errorMsg := "用例不存在: record not found" }
        let rec1 := runBindings env taskID st rest (idx + 1)
        (cr :: rec1.1, rec1.2)
    | some tc =>
        let cr := executeSingleCase env st idx tc.id
        let st1 := saveCaseResult st taskID cr
        let rec1 := runBindings env taskID st1 rest (idx + 1)
        (cr :: rec1.1, rec1.2)

/-- Body of `ExecuteTask` (task_service.go, lines 60–151) once the task row
`task0` has been loaded: persist status Running, load the bindings, run
them, summarize, derive the final batch status (failed when any case
failed, success otherwise), persist the collapsed task status and the
report row.  Returns the in-memory result and the store after all writes. -/
def ExecuteTaskFound (env : Env) (st : Store) (taskID : Nat) (task0 : TestTask) :
    TaskExecutionResult × Store :=
  let task := { task0 with status := 1 }
  let st1 := saveTask st task
  let relevances := st1.relevances.filter (fun r => r.taskId == taskID)
  let ran := runBindings env taskID st1 relevances 0
  let summary := calculateSummary ran.1
  let status := if summary.failedCases > 0 then "failed" else "success"
  let result : TaskExecutionResult :=
    { taskId := taskID
      status := status
      startTime := env.startTime
      endTime := env.endTime
      duration := env.endTime - env.startTime
      results := ran.1
      summary := summary
      errorMsg := "" }
  let st3 := updateTaskStatus ran.2 task status ""
  let st4 := saveTaskReport st3 taskID result
  (result, st4)

/-- Embeds `ExecuteTask` (task_service.go, lines 60–151): load the task; absence
aborts the whole batch with a not-found error before any write.  The pair
carries the returned value and the store after the call. -/
def ExecuteTask (env : Env) (st : Store) (taskID : Nat) :
    Except String TaskExecutionResult × Store :=
  match findTask st taskID with
  | none => (Except.error "任务不存在: record not found", st)
  | some task0 =>
    let r := ExecuteTaskFound env st taskID task0
    (Except.ok r.1, r.2)

/-- Embeds `GetTaskStatus` (task_service.go, lines 322–337): load the task and
return its integer status formatted with "%d". -/
def GetTaskStatus (st : Store) (taskID : Nat) : Except String String :=
  match findTask st taskID with
  | none => Except.error "任务不存在: record not found"
  | some task => Except.ok (toString task.status)

/-- Embeds `StopTask` (task_service.go, lines 339–365): load the task (absence is
a not-found error), reject with the state error when the status is not 1
(running), otherwise persist status 2 and the update instant.  The first
component is the returned error, the second the store after the call. -/
def StopTask (now : ℚ) (st : Store) (taskID : Nat) : Option String × Store :=
  match findTask st taskID with
  | none => (some "任务不存在: record not found", st)
  | some task =>
    if task.status ≠ 1 then
      (some "任务未在运行中", st)
    else
      (none, saveTask st { task with status := 2, updateTime := now })

/-- Outcome of the due-handler `executeScheduledTask`
(scheduler_service.go, lines 100–137): a status-read failure returns
without dispatching, the literal comparison with "running" skips, and
otherwise one asynchronous batch is dispatched. -/
inductive DueOutcome
  | statusFailed : String → DueOutcome
  | skippedAlreadyRunning : DueOutcome
  | dispatched : DueOutcome
  deriving Repr, DecidableEq

/-- Embeds `executeScheduledTask` (scheduler_service.go, lines 100–137): read the
task's status through `GetTaskStatus` and dispatch a batch unless the
returned string equals "running" (or the read failed). -/
def executeScheduledTask (st : Store) (taskID : Nat) : DueOutcome :=
  match GetTaskStatus st taskID with
  | Except.error e => DueOutcome.statusFailed e
  | Except.ok status =>
    if status == "running" then DueOutcome.skippedAlreadyRunning
    else DueOutcome.dispatched

/-- Number of batches the due-handler dispatches in one invocation. -/
def dispatchedBatches (o : DueOutcome) : Nat :=
  match o with
  | DueOutcome.dispatched => 1
  | _ => 0

/-- Embeds `db.Where("task_id = ? AND created_at BETWEEN ? AND ?", ...)`: the
report rows of a task inside an inclusive time window
(scheduler_service.go, line 270). -/
def reportsInWindow (st : Store) (taskID : Nat) (startT endT : ℚ) :
    List TaskReport :=
  st.taskReports.filter
    (fun r => r.taskId == taskID && decide (startT ≤ r.createTime) &&
      decide (r.createTime ≤ endT))

/-- The average-duration computation of `GetTaskStatistics`
(scheduler_service.go, lines 267–281): over the windowed report rows, parse
each row's RunTime with an "s" suffix appended; rows that parse contribute
their duration to the sum, rows that do not parse contribute nothing, and
the sum is divided by the number of ALL windowed rows.  `parse` is the
`time.ParseDuration` capability, returning seconds. -/
def avgDurationOf (parse : String → Option ℚ) (reports : List TaskReport) : ℚ :=
  if reports.length > 0 then
    (reports.foldl
      (fun acc r =>
        match parse (r.runTime ++ "s") with
        | some d => acc + d
        | none => acc) 0) / (reports.length : ℚ)
  else 0

/-- The avg_duration field computed by `GetTaskStatistics`
(scheduler_service.go, lines 241–291) for a task and window. -/
def getTaskStatisticsAvgDuration (parse : String → Option ℚ) (st : Store)
    (taskID : Nat) (startT endT : ℚ) : ℚ :=
  avgDurationOf parse (reportsInWindow st taskID startT endT)

/-- Modelled from the spec: the averaging rule as §4.6 states it — average
only over the rows whose duration parses successfully, skipping unparsable
rows entirely.  Stated for comparison with `avgDurationOf`. -/
def avgDurationSpecWords (parse : String → Option ℚ) (reports : List TaskReport) : ℚ :=
  let parsed := reports.filterMap (fun r => parse (r.runTime ++ "s"))
  if parsed.length > 0 then parsed.sum / (parsed.length : ℚ) else 0

/-! ## Concrete fixtures -/

/-- A running task (status 1) as stored for the C1 scenario. -/
def c1Task : TestTask :=
  { id := 1, name := "t1", status := 1, isScheduled := true,
    cronExpression := "0 0 12 * * *", isDelete := false, updateTime := 0 }

/-- A store whose only task reports status Running. -/
def c1Store : Store :=
  { tasks := [c1Task], cases := [], relevances := [], caseResults := [],
    taskReports := [] }

/-- An environment with the source's always-succeeding executor stub and
trivial JSON parsing; all clock reads return 0. -/
def baseEnv : Env :=
  { jsonParses := fun _ => true, runCaseError := runTestCase,
    startTime := 0, endTime := 0, caseStart := fun _ => 0, caseEnd := fun _ => 0 }

/-- A store with no rows at all. -/
def emptyStore : Store :=
  { tasks := [], cases := [], relevances := [], caseResults := [],
    taskReports := [] }

/-- A Running task for the C4 witness. -/
def c4Task : TestTask :=
  { id := 1, name := "t4", status := 1, isScheduled := false,
    cronExpression := "", isDelete := false, updateTime := 0 }

/-- Store for the C4 witness. -/
def c4Store : Store :=
  { tasks := [c4Task], cases := [], relevances := [], caseResults := [],
    taskReports := [] }

/-- An idle task with no case bindings for the C6 witness. -/
def c6Task : TestTask :=
  { id := 1, name := "t6", status := 0, isScheduled := false,
    cronExpression := "", isDelete := false, updateTime := 0 }

/-- Store for the C6 witness: task 1 exists, no bindings. -/
def c6Store : Store :=
  { tasks := [c6Task], cases := [], relevances := [], caseResults := [],
    taskReports := [] }

/-- The store after `ExecuteTask` has persisted status Running on `task0`
(step 2 of a batch); names the corresponding subterm of
`ExecuteTaskFound`. -/
def batchSt1 (st : Store) (task0 : TestTask) : Store :=
  saveTask st { task0 with status := 1 }

/-- The case bindings of the task as loaded in step 3 of a batch. -/
def batchRels (st : Store) (taskID : Nat) (task0 : TestTask) :
    List TaskCaseRelevance :=
  (batchSt1 st task0).relevances.filter (fun r => r.taskId == taskID)

/-- The result list and store produced by the per-binding loop of a batch. -/
def batchRan (env : Env) (st : Store) (taskID : Nat) (task0 : TestTask) :
    List CaseExecutionResult × Store :=
  runBindings env taskID (batchSt1 st task0) (batchRels st taskID task0) 0

/-- The resolvable case of the C2 scenario. -/
def c2CaseA : TestCase :=
  { id := 5, caseName := "A", caseDoc := "docA", caseHash := "hashA" }

/-- The task of the C2 scenario. -/
def c2Task : TestTask :=
  { id := 1, name := "t2", status := 0, isScheduled := false,
    cronExpression := "", isDelete := false, updateTime := 0 }

/-- Store for the C2 scenario: task 1 is bound to hashA (which resolves to
case 5) and hashB (which resolves to nothing). -/
def c2Store : Store :=
  { tasks := [c2Task], cases := [c2CaseA],
    relevances := [{ taskId := 1, caseHash := "hashA" },
                   { taskId := 1, caseHash := "hashB" }],
    caseResults := [], taskReports := [] }

/-- A concrete instance of the `time.ParseDuration` capability that agrees
with Go on every string made of decimal digits followed by "s" (such a
string parses to that many seconds) and on strings with any other shape
ending in "s" appended to a non-numeric prefix, which fail to parse. -/
def goParseSeconds (s : String) : Option ℚ :=
  match s.data.reverse with
  | 's' :: rest =>
    let digits := rest.reverse
    if digits ≠ [] ∧ digits.all (fun c => c.isDigit) then
      some ((digits.foldl (fun n c => n * 10 + (c.toNat - 48)) 0 : Nat) : ℚ)
    else none
  | _ => none

/-- A report row whose textual duration "2" parses (as "2s") to 2 seconds. -/
def c3Report1 : TaskReport :=
  { taskId := 1, name := "r1", report := "", passed := 1, error := 0,
    failure := 0, skipped := 0, tests := 1, runTime := "2", createTime := 5 }

/-- A report row whose textual duration "bad" does not parse. -/
def c3Report2 : TaskReport :=
  { taskId := 1, name := "r2", report := "", passed := 1, error := 0,
    failure := 0, skipped := 0, tests := 1, runTime := "bad", createTime := 6 }

/-- Store for the C3 scenario: two report rows for task 1, both inside the
query window, one parsable and one not. -/
def c3Store : Store :=
  { tasks := [], cases := [], relevances := [], caseResults := [],
    taskReports := [c3Report1, c3Report2] }

/-! ## Store lemmas -/

/-- A task found by `findTask` carries the looked-up id. -/
theorem findTask_some_id (st : Store) (i : Nat) (t : TestTask)
    (h : findTask st i = some t) : t.id = i := by
  have hp := List.find?_some h
  simpa using hp

/-- Lemma: `findTask` depends only on the task table. -/
theorem findTask_congr (st st' : Store) (i : Nat) (h : st.tasks = st'.tasks) :
    findTask st i = findTask st' i := by
  unfold findTask
  rw [h]

/-- Saving a row on top of a table that contains its primary key makes the
saved row the one found afterwards. -/
theorem find_save_list (l : List TestTask) (i : Nat) (t t' : TestTask)
    (h : l.find? (fun r => r.id == i) = some t) (hid : t'.id = i) :
    (l.map (fun r => if r.id == t'.id then t' else r)).find?
      (fun r => r.id == i) = some t' := by
  induction l with
  | nil => simp at h
  | cons a l ih =>
    by_cases ha : a.id = i
    · have hcond : (a.id == t'.id) = true := by simp [hid, ha]
      simp only [List.map_cons, hcond, if_true]
      exact List.find?_cons_of_pos _ (by simp [hid])
    · have hcond : (a.id == t'.id) = false := by simp [hid, ha]
      have hpa : ¬ ((a.id == i) = true) := by simp [ha]
      rw [List.find?_cons_of_neg _ (by simpa using hpa)] at h
      simp only [List.map_cons, hcond, if_false]
      rw [List.find?_cons_of_neg _ (by simpa using hpa)]
      exact ih h

/-- Lemma: `findTask` after `saveTask` returns the saved row when the key was
present before. -/
theorem findTask_saveTask (st : Store) (i : Nat) (t t' : TestTask)
    (h : findTask st i = some t) (hid : t'.id = i) :
    findTask (saveTask st t') i = some t' := by
  unfold findTask saveTask at *
  exact find_save_list st.tasks i t t' h hid

/-- The per-binding loop only inserts case-result rows: the other four
tables are untouched. -/
theorem runBindings_store (env : Env) (taskID : Nat) :
    ∀ (rels : List TaskCaseRelevance) (st : Store) (idx : Nat),
      (runBindings env taskID st rels idx).2.tasks = st.tasks ∧
      (runBindings env taskID st rels idx).2.cases = st.cases ∧
      (runBindings env taskID st rels idx).2.relevances = st.relevances ∧
      (runBindings env taskID st rels idx).2.taskReports = st.taskReports := by
  intro rels
  induction rels with
  | nil =>
    intro st idx
    exact ⟨rfl, rfl, rfl, rfl⟩
  | cons rel rest ih =>
    intro st idx
    unfold runBindings
    cases hfc : findCaseByHash st rel.caseHash with
    | none =>
      simpa using ih st (idx + 1)
    | some tc =>
      simpa using ih (saveCaseResult st taskID (executeSingleCase env st idx tc.id)) (idx + 1)

/-! ## Claim theorems -/

/-- C1: the claim says that whenever the store reports the task's status as
Running, the due-handler skips and dispatches zero batches.  On the code
this fails: `GetTaskStatus` renders the integer status with "%d", so a
Running task yields the string "1", the comparison with the literal
"running" is false, and `executeScheduledTask` dispatches a batch anyway.
This theorem evaluates the code at the failing input: a store whose task
has status 1 (Running). -/
theorem c1_running_task_still_dispatched :
    GetTaskStatus c1Store 1 = Except.ok "1" ∧
    executeScheduledTask c1Store 1 = DueOutcome.dispatched ∧
    dispatchedBatches (executeScheduledTask c1Store 1) = 1 := by
  refine ⟨rfl, rfl, rfl⟩

/-- C5: `IsValidCronExpression` accepts a string exactly when it is empty
or splits on whitespace into exactly 5 or exactly 6 fields; in particular
"* * * *" is rejected and "0 0 12 * * *" accepted. -/
theorem c5_validate_field_count :
    (∀ expr : String, IsValidCronExpression expr = true ↔
      (expr = "" ∨ (goFields expr).length = 5 ∨ (goFields expr).length = 6)) ∧
    IsValidCronExpression "* * * *" = false ∧
    IsValidCronExpression "0 0 12 * * *" = true := by
  refine ⟨fun expr => ?_, by decide, by decide⟩
  by_cases h : expr = ""
  · simp [IsValidCronExpression, h]
  · simp only [IsValidCronExpression, h, if_false, Bool.or_eq_true, beq_iff_eq]
    tauto

/-- C7: starting a batch for a task id absent from the store fails with the
not-found error and aborts the whole batch: the store is returned exactly
as it was, so no status write, no case execution and no report write
happened. -/
theorem c7_missing_task_aborts (env : Env) (st : Store) (taskID : Nat)
    (h : findTask st taskID = none) :
    (ExecuteTask env st taskID).1 = Except.error "任务不存在: record not found" ∧
    (ExecuteTask env st taskID).2 = st := by
  unfold ExecuteTask
  rw [h]
  exact ⟨rfl, rfl⟩

/-- Witness for C7: the empty store has no task 1, and the batch aborts
with the store unchanged. -/
theorem c7_witness :
    findTask emptyStore 1 = none ∧
    (ExecuteTask baseEnv emptyStore 1).1 = Except.error "任务不存在: record not found" ∧
    (ExecuteTask baseEnv emptyStore 1).2 = emptyStore := by
  have h := c7_missing_task_aborts baseEnv emptyStore 1 rfl
  exact ⟨rfl, h.1, h.2⟩

/-- C4: for every stored task, `StopTask` fails with the state error
exactly when the task's persisted status is not 1 (Running); on failure the
store is returned unchanged; when the task is Running it persists status 2
(the stopped terminal value, distinct from 0 Idle and 1 Running) together
with the update instant, touching no other table — in particular no
in-flight batch data (case results, reports) is affected. -/
theorem c4_stop_semantics (now : ℚ) (st : Store) (taskID : Nat) (task : TestTask)
    (hfind : findTask st taskID = some task) :
    ((StopTask now st taskID).1 = some "任务未在运行中" ↔ task.status ≠ 1) ∧
    (task.status ≠ 1 → (StopTask now st taskID).2 = st) ∧
    (task.status = 1 →
      (StopTask now st taskID).1 = none ∧
      findTask (StopTask now st taskID).2 taskID =
        some { task with status := 2, updateTime := now } ∧
      (2 : Int) ≠ 0 ∧ (2 : Int) ≠ 1 ∧
      (StopTask now st taskID).2.cases = st.cases ∧
      (StopTask now st taskID).2.relevances = st.relevances ∧
      (StopTask now st taskID).2.caseResults = st.caseResults ∧
      (StopTask now st taskID).2.taskReports = st.taskReports) := by
  have hred : StopTask now st taskID =
      if task.status ≠ 1 then (some "任务未在运行中", st)
      else (none, saveTask st { task with status := 2, updateTime := now }) := by
    unfold StopTask
    rw [hfind]
  rw [hred]
  by_cases hs : task.status = 1
  · rw [if_neg (by simp [hs])]
    refine ⟨by simp [hs], fun hne => absurd hs hne, fun _ => ?_⟩
    refine ⟨rfl, ?_, by decide, by decide, rfl, rfl, rfl, rfl⟩
    exact findTask_saveTask st taskID task _ hfind (findTask_some_id st taskID task hfind)
  · rw [if_pos hs]
    exact ⟨by simp [hs], fun _ => rfl, fun h1 => absurd h1 hs⟩

/-- Witness for C4: stopping the Running task 1 at instant 7 succeeds and
persists status 2. -/
theorem c4_witness :
    findTask c4Store 1 = some c4Task ∧
    (StopTask 7 c4Store 1).1 = none ∧
    findTask (StopTask 7 c4Store 1).2 1 =
      some { c4Task with status := 2, updateTime := 7 } := by
  have h := c4_stop_semantics 7 c4Store 1 c4Task rfl
  exact ⟨rfl, (h.2.2 rfl).1, (h.2.2 rfl).2.1⟩

/-- C6: the summary's pass rate is passed/total*100 when total is positive
and 0 when total is 0, with total the number of results; and a batch over a
task with zero case bindings produces total 0 and pass rate 0. -/
theorem c6_pass_rate :
    (∀ results : List CaseExecutionResult,
      (calculateSummary results).totalCases = results.length ∧
      ((calculateSummary results).totalCases > 0 →
        (calculateSummary results).passRate =
          ((calculateSummary results).passedCases : ℚ) /
            ((calculateSummary results).totalCases : ℚ) * 100) ∧
      ((calculateSummary results).totalCases = 0 →
        (calculateSummary results).passRate = 0)) ∧
    (∀ (env : Env) (st : Store) (taskID : Nat) (task : TestTask),
      findTask st taskID = some task →
      st.relevances.filter (fun r => r.taskId == taskID) = [] →
      ((ExecuteTask env st taskID).1.map
          (fun r => (r.summary.totalCases, r.summary.passRate))) =
        Except.ok (0, 0)) := by
  constructor
  · intro results
    refine ⟨rfl, fun h => ?_, fun h => ?_⟩
    · simp only [calculateSummary] at h ⊢
      rw [if_pos h]
    · simp only [calculateSummary] at h ⊢
      rw [if_neg (by omega)]
  · intro env st taskID task hfind hrel
    have hrel1 : (saveTask st { task with status := 1 }).relevances.filter
        (fun r => r.taskId == taskID) = [] := hrel
    simp only [ExecuteTask, ExecuteTaskFound, hfind, hrel1, runBindings,
      calculateSummary, Except.map, List.countP_nil, List.length_nil]
    rfl

/-- Witness for C6: the zero-binding batch yields total 0 and pass rate 0. -/
theorem c6_witness :
    findTask c6Store 1 = some c6Task ∧
    c6Store.relevances.filter (fun r => r.taskId == 1) = [] ∧
    ((ExecuteTask baseEnv c6Store 1).1.map
        (fun r => (r.summary.totalCases, r.summary.passRate))) = Except.ok (0, 0) := by
  exact ⟨rfl, rfl, c6_pass_rate.2 baseEnv c6Store 1 c6Task rfl rfl⟩

/-! ## Batch lemmas -/

/-- Every result produced by `executeSingleCase` ends passed or failed. -/
theorem executeSingleCase_status (env : Env) (st : Store) (idx caseID : Nat) :
    (executeSingleCase env st idx caseID).status = "passed" ∨
    (executeSingleCase env st idx caseID).status = "failed" := by
  unfold executeSingleCase
  cases hfc : findCaseByID st caseID with
  | none => exact Or.inr rfl
  | some tc =>
    by_cases hj : env.jsonParses tc.caseDoc = true
    · simp only [hj, if_true]
      cases hc : env.runCaseError tc.caseDoc with
      | none => exact Or.inl rfl
      | some e => exact Or.inr rfl
    · simp only [hj, if_false]
      exact Or.inr rfl

/-- Every result produced by the per-binding loop ends passed or failed:
unresolved bindings are synthesized failed, resolved ones go through
`executeSingleCase`. -/
theorem runBindings_results_status (env : Env) (taskID : Nat) :
    ∀ (rels : List TaskCaseRelevance) (st : Store) (idx : Nat)
      (cr : CaseExecutionResult),
      cr ∈ (runBindings env taskID st rels idx).1 →
      cr.status = "passed" ∨ cr.status = "failed" := by
  intro rels
  induction rels with
  | nil =>
    intro st idx cr h
    simp [runBindings] at h
  | cons rel rest ih =>
    intro st idx cr h
    cases hfc : findCaseByHash st rel.caseHash with
    | none =>
      simp only [runBindings, hfc, List.mem_cons] at h
      rcases h with rfl | h
      · exact Or.inr rfl
      · exact ih st (idx + 1) cr h
    | some tc =>
      simp only [runBindings, hfc, List.mem_cons] at h
      rcases h with rfl | h
      · exact executeSingleCase_status env st idx tc.id
      · exact ih (saveCaseResult st taskID (executeSingleCase env st idx tc.id))
          (idx + 1) cr h

/-- Counting lemma: over a list whose members are all passed or failed, no
result counts as skipped and the passed and failed counts add up to the
length. -/
theorem countP_pass_fail :
    ∀ (l : List CaseExecutionResult),
      (∀ cr ∈ l, cr.status = "passed" ∨ cr.status = "failed") →
      l.countP (fun r => r.status == "skipped") = 0 ∧
      l.countP (fun r => r.status == "passed") +
        l.countP (fun r => r.status == "failed") = l.length := by
  intro l
  induction l with
  | nil => intro _; simp
  | cons a l ih =>
    intro hl
    obtain ⟨h1, h2⟩ := ih (fun cr hcr => hl cr (List.mem_cons_of_mem a hcr))
    rcases hl a (List.mem_cons_self a l) with hp | hf
    · constructor
      · simp [List.countP_cons, hp, h1]
      · simp [List.countP_cons, hp, h2]
        omega
    · constructor
      · simp [List.countP_cons, hf, h1]
      · simp [List.countP_cons, hf, h2]
        omega

/-- Field equations of `calculateSummary`. -/
theorem calculateSummary_totalCases (l : List CaseExecutionResult) :
    (calculateSummary l).totalCases = l.length := rfl

/-- The skipped counter of the summary counts skipped statuses. -/
theorem calculateSummary_skippedCases (l : List CaseExecutionResult) :
    (calculateSummary l).skippedCases =
      l.countP (fun r => r.status == "skipped") := rfl

/-- The passed counter of the summary counts passed statuses. -/
theorem calculateSummary_passedCases (l : List CaseExecutionResult) :
    (calculateSummary l).passedCases =
      l.countP (fun r => r.status == "passed") := rfl

/-- The failed counter of the summary counts failed statuses. -/
theorem calculateSummary_failedCases (l : List CaseExecutionResult) :
    (calculateSummary l).failedCases =
      l.countP (fun r => r.status == "failed") := rfl

/-- The results carried by a batch outcome are the loop's results. -/
theorem ExecuteTaskFound_results (env : Env) (st : Store) (taskID : Nat)
    (task0 : TestTask) :
    (ExecuteTaskFound env st taskID task0).1.results =
      (batchRan env st taskID task0).1 := rfl

/-- The summary carried by a batch outcome summarizes the loop's results. -/
theorem ExecuteTaskFound_summary (env : Env) (st : Store) (taskID : Nat)
    (task0 : TestTask) :
    (ExecuteTaskFound env st taskID task0).1.summary =
      calculateSummary (batchRan env st taskID task0).1 := rfl

/-- The batch status is failed exactly when some case failed. -/
theorem ExecuteTaskFound_status (env : Env) (st : Store) (taskID : Nat)
    (task0 : TestTask) :
    (ExecuteTaskFound env st taskID task0).1.status =
      (if (calculateSummary (batchRan env st taskID task0).1).failedCases > 0
        then "failed" else "success") := rfl

/-- A completed batch appends exactly one report row, built by
`mkTaskReport` from the batch result. -/
theorem ExecuteTaskFound_taskReports (env : Env) (st : Store) (taskID : Nat)
    (task0 : TestTask) :
    (ExecuteTaskFound env st taskID task0).2.taskReports =
      st.taskReports ++
        [mkTaskReport taskID (ExecuteTaskFound env st taskID task0).1] := by
  have hr := (runBindings_store env taskID (batchRels st taskID task0)
    (batchSt1 st task0) 0).2.2.2
  show (batchRan env st taskID task0).2.taskReports ++
      [mkTaskReport taskID (ExecuteTaskFound env st taskID task0).1] =
    st.taskReports ++ [mkTaskReport taskID (ExecuteTaskFound env st taskID task0).1]
  rw [show (batchRan env st taskID task0).2.taskReports =
      (batchSt1 st task0).taskReports from hr]
  rfl

/-- The collapsed status 2 is what a completed batch persists on the task
row, whatever the batch outcome was. -/
theorem ExecuteTaskFound_findTask (env : Env) (st : Store) (taskID : Nat)
    (task0 : TestTask) (hfind : findTask st taskID = some task0) :
    findTask (ExecuteTaskFound env st taskID task0).2 taskID =
      some { task0 with status := 2 } := by
  have hid : ({ task0 with status := 1 } : TestTask).id = taskID :=
    findTask_some_id st taskID task0 hfind
  have h1 : findTask (batchSt1 st task0) taskID =
      some { task0 with status := 1 } :=
    findTask_saveTask st taskID task0 _ hfind hid
  have h2 : findTask (batchRan env st taskID task0).2 taskID =
      some { task0 with status := 1 } := by
    rw [findTask_congr (batchRan env st taskID task0).2 (batchSt1 st task0)
      taskID (runBindings_store env taskID (batchRels st taskID task0)
        (batchSt1 st task0) 0).1]
    exact h1
  have hs : statusToInt
      (if (calculateSummary (batchRan env st taskID task0).1).failedCases > 0
        then "failed" else "success") = 2 := by
    by_cases hc :
        (calculateSummary (batchRan env st taskID task0).1).failedCases > 0
    · rw [if_pos hc]; rfl
    · rw [if_neg hc]; rfl
  have h3 : findTask (ExecuteTaskFound env st taskID task0).2 taskID =
      some { ({ task0 with status := 1 } : TestTask) with
        status := statusToInt
          (if (calculateSummary (batchRan env st taskID task0).1).failedCases > 0
            then "failed" else "success") } :=
    findTask_saveTask (batchRan env st taskID task0).2 taskID
      { task0 with status := 1 } _ h2 hid
  rw [h3, hs]

/-- The fold of the statistics query adds exactly the parsable durations to
the accumulator. -/
theorem foldl_parse_sum (parse : String → Option ℚ) :
    ∀ (l : List TaskReport) (acc : ℚ),
      l.foldl (fun acc r =>
        match parse (r.runTime ++ "s") with
        | some d => acc + d
        | none => acc) acc =
      acc + (l.filterMap (fun r => parse (r.runTime ++ "s"))).sum := by
  intro l
  induction l with
  | nil => intro acc; simp
  | cons a l ih =>
    intro acc
    cases hp : parse (a.runTime ++ "s") with
    | none =>
      simp only [List.foldl_cons, List.filterMap_cons, hp]
      exact ih acc
    | some d =>
      simp only [List.foldl_cons, List.filterMap_cons, hp, List.sum_cons]
      rw [ih (acc + d)]
      ring

/-- C8: every completed batch persists the same collapsed status 2 (Done)
on the task row whether the batch outcome was success or failure; 2 is
distinct from 0 (Idle) and 1 (Running); the success/failure distinction
lives in the transient result (whose status is success exactly when no
case failed) and in the report row's text, not on the task row. -/
theorem c8_collapsed_done_status (env : Env) (st : Store) (taskID : Nat)
    (task : TestTask) (hfind : findTask st taskID = some task) :
    ∃ r : TaskExecutionResult,
      (ExecuteTask env st taskID).1 = Except.ok r ∧
      (r.status = "success" ∨ r.status = "failed") ∧
      (r.status = "success" ↔ r.summary.failedCases = 0) ∧
      statusToInt r.status = 2 ∧
      findTask (ExecuteTask env st taskID).2 taskID =
        some { task with status := 2 } ∧
      (2 : Int) ≠ 0 ∧ (2 : Int) ≠ 1 ∧
      (ExecuteTask env st taskID).2.taskReports =
        st.taskReports ++ [mkTaskReport taskID r] ∧
      (mkTaskReport taskID r).report = "Task executed with status: " ++ r.status := by
  have hexe : ExecuteTask env st taskID =
      (Except.ok (ExecuteTaskFound env st taskID task).1,
        (ExecuteTaskFound env st taskID task).2) := by
    unfold ExecuteTask
    rw [hfind]
  refine ⟨(ExecuteTaskFound env st taskID task).1, ?_, ?_, ?_, ?_, ?_,
    by decide, by decide, ?_, rfl⟩
  · rw [hexe]
  · rw [ExecuteTaskFound_status]
    by_cases hc : (calculateSummary (batchRan env st taskID task).1).failedCases > 0
    · rw [if_pos hc]; exact Or.inr rfl
    · rw [if_neg hc]; exact Or.inl rfl
  · rw [ExecuteTaskFound_status, ExecuteTaskFound_summary]
    by_cases hc : (calculateSummary (batchRan env st taskID task).1).failedCases > 0
    · rw [if_pos hc]
      constructor
      · intro h; exact absurd h (by decide)
      · intro h; exact absurd h (by omega)
    · rw [if_neg hc]
      constructor
      · intro _; omega
      · intro _; rfl
  · rw [ExecuteTaskFound_status]
    by_cases hc : (calculateSummary (batchRan env st taskID task).1).failedCases > 0
    · rw [if_pos hc]; rfl
    · rw [if_neg hc]; rfl
  · rw [hexe]
    exact ExecuteTaskFound_findTask env st taskID task hfind
  · rw [hexe]
    exact ExecuteTaskFound_taskReports env st taskID task

/-- Witness for C8: the C2 store's batch (which fails one case) still
persists status 2 on the task row. -/
theorem c8_witness :
    findTask c2Store 1 = some c2Task ∧
    findTask (ExecuteTask baseEnv c2Store 1).2 1 = some { c2Task with status := 2 } := by
  obtain ⟨r, h1, h2, h3, h4, h5, h6, h7, h8, h9⟩ :=
    c8_collapsed_done_status baseEnv c2Store 1 c2Task rfl
  exact ⟨rfl, h5⟩

/-- C9: the report row built at the end of every batch sets both its Error
and its Failure column to the summary's failed-case count, so the two
columns always coincide; consequently every report row present after a
batch either predates the batch or has Error = Failure. -/
theorem c9_report_error_eq_failure :
    (∀ (taskID : Nat) (r : TaskExecutionResult),
      (mkTaskReport taskID r).error = (r.summary.failedCases : Int) ∧
      (mkTaskReport taskID r).failure = (r.summary.failedCases : Int) ∧
      (mkTaskReport taskID r).error = (mkTaskReport taskID r).failure) ∧
    (∀ (env : Env) (st : Store) (taskID : Nat) (rep : TaskReport),
      rep ∈ (ExecuteTask env st taskID).2.taskReports →
      rep ∈ st.taskReports ∨ rep.error = rep.failure) := by
  constructor
  · exact fun taskID r => ⟨rfl, rfl, rfl⟩
  · intro env st taskID rep hmem
    cases hfind : findTask st taskID with
    | none =>
      have hst : (ExecuteTask env st taskID).2 = st := by
        unfold ExecuteTask
        rw [hfind]
      rw [hst] at hmem
      exact Or.inl hmem
    | some task0 =>
      have hst : (ExecuteTask env st taskID).2 =
          (ExecuteTaskFound env st taskID task0).2 := by
        unfold ExecuteTask
        rw [hfind]
      rw [hst, ExecuteTaskFound_taskReports] at hmem
      rcases List.mem_append.mp hmem with hold | hnew
      · exact Or.inl hold
      · right
        rw [List.mem_singleton.mp hnew]
        rfl

/-- Witness for C9: the report row written by the C2 store's batch is in
the resulting store and has Error = Failure. -/
theorem c9_witness :
    mkTaskReport 1 (ExecuteTaskFound baseEnv c2Store 1 c2Task).1 ∈
      (ExecuteTask baseEnv c2Store 1).2.taskReports ∧
    (mkTaskReport 1 (ExecuteTaskFound baseEnv c2Store 1 c2Task).1 ∈
        c2Store.taskReports ∨
      (mkTaskReport 1 (ExecuteTaskFound baseEnv c2Store 1 c2Task).1).error =
        (mkTaskReport 1 (ExecuteTaskFound baseEnv c2Store 1 c2Task).1).failure) := by
  have hmem : mkTaskReport 1 (ExecuteTaskFound baseEnv c2Store 1 c2Task).1 ∈
      (ExecuteTask baseEnv c2Store 1).2.taskReports := by
    have hst : (ExecuteTask baseEnv c2Store 1).2.taskReports =
        c2Store.taskReports ++
          [mkTaskReport 1 (ExecuteTaskFound baseEnv c2Store 1 c2Task).1] :=
      ExecuteTaskFound_taskReports baseEnv c2Store 1 c2Task
    rw [hst]
    simp
  exact ⟨hmem, c9_report_error_eq_failure.2 baseEnv c2Store 1 _ hmem⟩

/-- C10: every case result a batch produces — whether the binding resolved
or not — ends passed or failed, never skipped; hence the summary counts no
skipped case and passed + failed = total. -/
theorem c10_results_pass_or_fail (env : Env) (st : Store) (taskID : Nat)
    (r : TaskExecutionResult)
    (h : (ExecuteTask env st taskID).1 = Except.ok r) :
    (∀ cr ∈ r.results, cr.status = "passed" ∨ cr.status = "failed") ∧
    r.summary.skippedCases = 0 ∧
    r.summary.passedCases + r.summary.failedCases = r.summary.totalCases := by
  cases hfind : findTask st taskID with
  | none =>
    have hst : (ExecuteTask env st taskID).1 =
        Except.error "任务不存在: record not found" := by
      unfold ExecuteTask
      rw [hfind]
    rw [hst] at h
    simp at h
  | some task0 =>
    have hexe : (ExecuteTask env st taskID).1 =
        Except.ok (ExecuteTaskFound env st taskID task0).1 := by
      unfold ExecuteTask
      rw [hfind]
    rw [hexe] at h
    simp only [Except.ok.injEq] at h
    subst h
    have hmem : ∀ cr ∈ (batchRan env st taskID task0).1,
        cr.status = "passed" ∨ cr.status = "failed" :=
      fun cr hcr => runBindings_results_status env taskID
        (batchRels st taskID task0) (batchSt1 st task0) 0 cr hcr
    obtain ⟨h1, h2⟩ := countP_pass_fail _ hmem
    refine ⟨?_, ?_, ?_⟩
    · intro cr hcr
      rw [ExecuteTaskFound_results] at hcr
      exact hmem cr hcr
    · rw [ExecuteTaskFound_summary, calculateSummary_skippedCases]
      exact h1
    · rw [ExecuteTaskFound_summary, calculateSummary_passedCases,
        calculateSummary_failedCases, calculateSummary_totalCases]
      exact h2

/-- Witness for C10: the C2 store's batch (one resolved passed case, one
unresolved binding) has no skipped case and passed + failed = total. -/
theorem c10_witness :
    (ExecuteTask baseEnv c2Store 1).1 =
      Except.ok (ExecuteTaskFound baseEnv c2Store 1 c2Task).1 ∧
    (ExecuteTaskFound baseEnv c2Store 1 c2Task).1.summary.skippedCases = 0 ∧
    (ExecuteTaskFound baseEnv c2Store 1 c2Task).1.summary.passedCases +
        (ExecuteTaskFound baseEnv c2Store 1 c2Task).1.summary.failedCases =
      (ExecuteTaskFound baseEnv c2Store 1 c2Task).1.summary.totalCases := by
  have h := c10_results_pass_or_fail baseEnv c2Store 1
    (ExecuteTaskFound baseEnv c2Store 1 c2Task).1 rfl
  exact ⟨rfl, h.2.1, h.2.2⟩

/-- C3 counterexample: over two windowed reports — one whose duration "2"
parses to 2 seconds and one whose duration "bad" does not parse — the code
returns (2+0)/2 = 1, while averaging only over the rows that parse (as the
claim states) gives 2/1 = 2.  The unparsable row is NOT excluded: it
contributes zero to the sum but still counts in the denominator. -/
theorem c3_counterexample :
    reportsInWindow c3Store 1 0 10 = [c3Report1, c3Report2] ∧
    goParseSeconds (c3Report1.runTime ++ "s") = some 2 ∧
    goParseSeconds (c3Report2.runTime ++ "s") = none ∧
    getTaskStatisticsAvgDuration goParseSeconds c3Store 1 0 10 = 1 ∧
    avgDurationSpecWords goParseSeconds (reportsInWindow c3Store 1 0 10) = 2 ∧
    getTaskStatisticsAvgDuration goParseSeconds c3Store 1 0 10 ≠
      avgDurationSpecWords goParseSeconds (reportsInWindow c3Store 1 0 10) := by
  have hwin : reportsInWindow c3Store 1 0 10 = [c3Report1, c3Report2] := rfl
  have hp1 : goParseSeconds (c3Report1.runTime ++ "s") = some 2 := rfl
  have hp2 : goParseSeconds (c3Report2.runTime ++ "s") = none := rfl
  have h4 : getTaskStatisticsAvgDuration goParseSeconds c3Store 1 0 10 = 1 := by
    unfold getTaskStatisticsAvgDuration avgDurationOf
    rw [hwin]
    simp only [List.foldl_cons, List.foldl_nil, hp1, hp2, List.length_cons,
      List.length_nil]
    norm_num
  have h5 : avgDurationSpecWords goParseSeconds
      (reportsInWindow c3Store 1 0 10) = 2 := by
    rw [hwin]
    unfold avgDurationSpecWords
    simp only [List.filterMap_cons, List.filterMap_nil, hp1, hp2]
    norm_num
  refine ⟨hwin, hp1, hp2, h4, h5, ?_⟩
  rw [h4, h5]
  norm_num

/-- C3 amended: the statistics query sums the durations of the windowed
rows that parse (an unparsable row contributes zero) and divides by the
number of ALL windowed rows, parsable or not; it does not exclude
unparsable rows from the average. -/
theorem c3_avg_counts_unparsable_rows (parse : String → Option ℚ)
    (st : Store) (taskID : Nat) (startT endT : ℚ) :
    getTaskStatisticsAvgDuration parse st taskID startT endT =
      if (reportsInWindow st taskID startT endT).length > 0 then
        ((reportsInWindow st taskID startT endT).filterMap
            (fun r => parse (r.runTime ++ "s"))).sum /
          ((reportsInWindow st taskID startT endT).length : ℚ)
      else 0 := by
  unfold getTaskStatisticsAvgDuration avgDurationOf
  by_cases h : (reportsInWindow st taskID startT endT).length > 0
  · rw [if_pos h, if_pos h, foldl_parse_sum, zero_add]
  · rw [if_neg h, if_neg h]

/-- C2 counterexample: in the two-binding scenario the summary is indeed
{total 2, passed 1, failed 1, passRate 50}, but the claim's persisted
per-case row for hashB does not exist: the store after the batch holds
exactly one per-case row, the one for the resolved case "A" — the loop
`continue`s past an unresolved binding before reaching `saveCaseResult`. -/
theorem c2_counterexample :
    ((ExecuteTask baseEnv c2Store 1).1.map (fun r => r.summary)) =
      Except.ok { totalCases := 2, passedCases := 1, failedCases := 1,
                  skippedCases := 0, passRate := 50 } ∧
    ((ExecuteTask baseEnv c2Store 1).2.caseResults.map
        (fun row => (row.caseId, row.name))) = [(5, "A")] ∧
    ((ExecuteTask baseEnv c2Store 1).2.caseResults.filter
        (fun row => row.name == "hashB")) = [] := by
  have h1 : ExecuteTask baseEnv c2Store 1 =
      (Except.ok (ExecuteTaskFound baseEnv c2Store 1 c2Task).1,
        (ExecuteTaskFound baseEnv c2Store 1 c2Task).2) := by
    unfold ExecuteTask
    rw [show findTask c2Store 1 = some c2Task from rfl]
  rw [h1]
  refine ⟨?_, ?_, ?_⟩
  · simp only [Except.map]
    have hsum : (ExecuteTaskFound baseEnv c2Store 1 c2Task).1.summary =
        calculateSummary (batchRan baseEnv c2Store 1 c2Task).1 :=
      ExecuteTaskFound_summary baseEnv c2Store 1 c2Task
    rw [hsum]
    have hres : (batchRan baseEnv c2Store 1 c2Task).1 =
        [{ caseId := 5, caseName := "A", status := "passed",
           startTime := 0, endTime := 0, duration := 0 - 0, errorMsg := "" },
         { caseId := 0, caseName := "hashB", status := "failed",
           startTime := 0, endTime := 0, duration := 0,
           errorMsg := "用例不存在: record not found" }] := rfl
    rw [hres]
    simp only [calculateSummary, List.countP_cons, List.countP_nil,
      List.length_cons, List.length_nil]
    simp
    norm_num
  · rfl
  · rfl

/-- C2 (amended): for any environment in which case "A"'s doc parses and
the executor succeeds on it, the two-binding batch synthesizes a failed
CaseExecutionResult for hashB carrying the not-found error message, the
summary is {total 2, passed 1, failed 1, passRate 50}, and the store gains
exactly one per-case row — for the resolved case — and none for hashB. -/
theorem c2_unresolved_binding_not_persisted (env : Env)
    (hj : env.jsonParses "docA" = true)
    (hr : env.runCaseError "docA" = none) :
    ((ExecuteTask env c2Store 1).1.map (fun r => r.summary)) =
      Except.ok { totalCases := 2, passedCases := 1, failedCases := 1,
                  skippedCases := 0, passRate := 50 } ∧
    ((ExecuteTask env c2Store 1).1.map
        (fun r => r.results.map (fun cr => (cr.caseName, cr.status, cr.errorMsg)))) =
      Except.ok [("A", "passed", ""),
                 ("hashB", "failed", "用例不存在: record not found")] ∧
    ((ExecuteTask env c2Store 1).2.caseResults.map
        (fun row => (row.caseId, row.name))) = [(5, "A")] := by
  have h1 : ExecuteTask env c2Store 1 =
      (Except.ok (ExecuteTaskFound env c2Store 1 c2Task).1,
        (ExecuteTaskFound env c2Store 1 c2Task).2) := by
    unfold ExecuteTask
    rw [show findTask c2Store 1 = some c2Task from rfl]
  have hA : executeSingleCase env (batchSt1 c2Store c2Task) 0 5 =
      { caseId := 5, caseName := "A", status := "passed",
        startTime := env.caseStart 0, endTime := env.caseEnd 0,
        duration := env.caseEnd 0 - env.caseStart 0, errorMsg := "" } := by
    have e1 : findCaseByID (batchSt1 c2Store c2Task) 5 = some c2CaseA := rfl
    unfold executeSingleCase
    rw [e1]
    simp only [c2CaseA, hj, if_true, hr]
  have e2 : findCaseByHash (batchSt1 c2Store c2Task) "hashA" = some c2CaseA := rfl
  have e3 : findCaseByHash (saveCaseResult (batchSt1 c2Store c2Task) 1
      { caseId := 5, caseName := "A", status := "passed",
        startTime := env.caseStart 0, endTime := env.caseEnd 0,
        duration := env.caseEnd 0 - env.caseStart 0, errorMsg := "" })
      "hashB" = none := rfl
  have hran : batchRan env c2Store 1 c2Task =
      ([{ caseId := 5, caseName := "A", status := "passed",
          startTime := env.caseStart 0, endTime := env.caseEnd 0,
          duration := env.caseEnd 0 - env.caseStart 0, errorMsg := "" },
        { caseId := 0, caseName := "hashB", status := "failed",
          startTime := env.caseStart 1, endTime := env.caseEnd 1,
          duration := 0, errorMsg := "用例不存在: record not found" }],
       saveCaseResult (batchSt1 c2Store c2Task) 1
         { caseId := 5, caseName := "A", status := "passed",
           startTime := env.caseStart 0, endTime := env.caseEnd 0,
           duration := env.caseEnd 0 - env.caseStart 0, errorMsg := "" }) := by
    show runBindings env 1 (batchSt1 c2Store c2Task)
        [{ taskId := 1, caseHash := "hashA" },
         { taskId := 1, caseHash := "hashB" }] 0 = _
    simp [runBindings, e2, e3, hA, c2CaseA]
  refine ⟨?_, ?_, ?_⟩
  · rw [h1]
    simp only [Except.map]
    rw [ExecuteTaskFound_summary, hran]
    simp only [calculateSummary, List.countP_cons, List.countP_nil,
      List.length_cons, List.length_nil]
    simp
    norm_num
  · rw [h1]
    simp only [Except.map]
    rw [show (ExecuteTaskFound env c2Store 1 c2Task).1.results =
        (batchRan env c2Store 1 c2Task).1 from rfl, hran]
    simp
  · rw [h1]
    show (batchRan env c2Store 1 c2Task).2.caseResults.map
        (fun row => (row.caseId, row.name)) = [(5, "A")]
    rw [hran]
    simp only [saveCaseResult, insertCaseResult, mkCaseResult]
    rfl

/-- Witness for C2's amended theorem: the base environment parses "docA"
and its stub executor succeeds, and the batch persists exactly the one row
for case "A". -/
theorem c2_witness :
    baseEnv.jsonParses "docA" = true ∧
    baseEnv.runCaseError "docA" = none ∧
    ((ExecuteTask baseEnv c2Store 1).2.caseResults.map
        (fun row => (row.caseId, row.name))) = [(5, "A")] := by
  exact ⟨rfl, rfl,
    (c2_unresolved_binding_not_persisted baseEnv rfl rfl).2.2⟩
